import Mathlib

/-!
Verification of the audio timing core of the Aegisub fork `foolo/Aegisub`.

The definitions below are a shallow embedding of the C++ sources:
  * `src/src/audio_display.cpp`   — zoom ladder, timeline scale tiers, scrolling
  * `src/src/audio_timing_dialogue.cpp` — markers, timeable lines, the dialogue
    timing controller (`SetMarkers`, `SnapMarkers`, `OnLeftClick`, `DoCommit`)

Machine `int`s are modelled as `Int` (no arithmetic here comes near 2^31 except
the literal `INT_MAX` sentinel, which is kept as the literal 2147483647).
`double` arithmetic in the display code is modelled as `ℚ`; every comparison a
theorem below depends on is far from any rounding boundary.
-/

namespace Aegisub

/-- Function `tabs` from `utils.h` (not among the sources): absolute value on int.
Modelled from the spec: plain absolute value, used by the timing controller. -/
def tabs (x : Int) : Int := if x < 0 then -x else x

/-- Constant `INT_MAX`, the sentinel used for `snap_distance` and `clicked_ms`. -/
def INTMAX : Int := 2147483647

/-! ## `audio_display.cpp` -/

/-- Source `AudioDisplay::GetZoomLevelFactor` (`audio_display.cpp` lines 388-409):
starts from `factor = 100`, adds `25*level` for positive levels, and for
negative levels picks one of three linear ramps, clamping the result to at
least 1. -/
def zoomFactorClamp (f : Int) : Int :=
  if f ≤ 0 then 1 else f

def GetZoomLevelFactor (level : Int) : Int :=
  if 0 < level then
    100 + 25 * level
  else if level < 0 then
    zoomFactorClamp
      (if -5 ≤ level then 100 + 10 * level
       else if -11 ≤ level then 50 + (level + 5) * 5
       else 20 + level + 11)
  else 100

/-- The zoom ladder exactly as the claim states it (spec §4.A). -/
def claimZoomFactor (level : Int) : Int :=
  if 0 ≤ level then 100 + 25 * level
  else if -5 ≤ level then 100 + 10 * level
  else if -11 ≤ level then 50 + (level + 5) * 5
  else max 1 (20 + level + 11)

/-- The `new_ms_per_pixel` computed by `AudioDisplay::SetZoomLevel`
(`audio_display.cpp` lines 352-377): `100.0 * (1000.0 / 50) / factor`. -/
def newMsPerPixel (level : Int) : ℚ :=
  100 * (1000 / 50) / (GetZoomLevelFactor level : ℚ)

/-- The scale units of `AudioDisplayTimeline`. -/
inductive ScaleMinor
  | Millisecond | Centisecond | Decisecond | Second
  | Decasecond | Minute | Decaminute | Hour
deriving DecidableEq, Repr

/-- Source `AudioDisplayTimeline::ChangeZoom` (`audio_display.cpp` lines 81-120):
from `px_sec = 1000.0 / ms_per_pixel` pick `(scale_minor,
scale_minor_divisor, scale_major_modulo)` by the first threshold that holds. -/
def ChangeZoomScale (ms_per_pixel : ℚ) : ScaleMinor × ℚ × Nat :=
  let px_sec : ℚ := 1000 / ms_per_pixel
  if 3000 < px_sec then (.Millisecond, 1, 10)
  else if 300 < px_sec then (.Centisecond, 10, 10)
  else if 30 < px_sec then (.Decisecond, 100, 10)
  else if 3 < px_sec then (.Second, 1000, 10)
  else if 1/3 < px_sec then (.Decasecond, 10000, 6)
  else if 1/9 < px_sec then (.Minute, 60000, 10)
  else if 1/90 < px_sec then (.Decaminute, 600000, 6)
  else (.Hour, 3600000, 10)

/-- The decade-spaced tier table exactly as the claim states it, as a function
of `px_per_sec` (spec §4.A). -/
def claimScaleTier (px_per_sec : ℚ) : ScaleMinor × ℚ × Nat :=
  if 3000 < px_per_sec then (.Millisecond, 1, 10)
  else if 300 < px_per_sec then (.Centisecond, 10, 10)
  else if 30 < px_per_sec then (.Decisecond, 100, 10)
  else if 3 < px_per_sec then (.Second, 1000, 10)
  else if 1/3 < px_per_sec then (.Decasecond, 10000, 6)
  else if 1/9 < px_per_sec then (.Minute, 60000, 10)
  else if 1/90 < px_per_sec then (.Decaminute, 600000, 6)
  else (.Hour, 3600000, 10)

/-- Source `AudioDisplay::ScrollPixelToLeft` (`audio_display.cpp` lines 297-309):
clamp the requested pixel position and store it in `scroll_left`. -/
def ScrollPixelToLeft (pixel_audio_width client_width pixel_position : Int) : Int :=
  let p := if pixel_audio_width ≤ pixel_position + client_width
           then pixel_audio_width - client_width
           else pixel_position
  if p < 0 then 0 else p

/-! ## `audio_timing_dialogue.cpp`: markers and timeable lines -/

/-- Enum `FeetStyle` from `audio_marker.h` (declaration only; the enum's values are
listed in the spec's data model). -/
inductive FeetStyle
  | FeetNone | FeetLeft | FeetRight | FeetBoth
deriving DecidableEq, Repr

/-- An `AssDialogue` as far as the timing controller reads and writes it:
an identity (the object's address in the C++ source) and its `Start`/`End`
times in milliseconds. -/
structure AssLine where
  id : Nat
  Start : Int
  End : Int
deriving DecidableEq, Repr

/-- Class `DialogueTimingMarker`: a position, a draw style (the `Pen*`, modelled as
an opaque tag) and a feet style.  The owning-line back pointer is implicit in
how the controller state stores markers inside their `TimeableLine`. -/
structure DialogueTimingMarker where
  position : Int
  style : Nat
  feet : FeetStyle
deriving DecidableEq, Repr

/-- Which of the two physical marker slots of a `TimeableLine` is meant.
The slots never move; only the `left_marker`/`right_marker` pointers swap. -/
inductive Slot
  | M1 | M2
deriving DecidableEq, Repr

/-- Class `TimeableLine`: the tracked dialogue line (null before `SetLine`), the two
physical markers `marker1`/`marker2`, and which slot the `left_marker` pointer
currently designates (`right_marker` is always the other slot). -/
structure TimeableLine where
  line : Option AssLine
  marker1 : DialogueTimingMarker
  marker2 : DialogueTimingMarker
  leftIsM1 : Bool
deriving DecidableEq, Repr

namespace TimeableLine

/-- The marker `left_marker` points to. -/
def leftMarker (t : TimeableLine) : DialogueTimingMarker :=
  if t.leftIsM1 then t.marker1 else t.marker2

/-- The marker `right_marker` points to. -/
def rightMarker (t : TimeableLine) : DialogueTimingMarker :=
  if t.leftIsM1 then t.marker2 else t.marker1

/-- The slot `left_marker` points to. -/
def leftSlot (t : TimeableLine) : Slot :=
  if t.leftIsM1 then .M1 else .M2

/-- The slot `right_marker` points to. -/
def rightSlot (t : TimeableLine) : Slot :=
  if t.leftIsM1 then .M2 else .M1

/-- Method `DialogueTimingMarker::SwapStyles` applied to the pair `(marker1, marker2)`:
exchange the two slots' draw styles and feet, leaving the positions where they
are. -/
def SwapStyles (t : TimeableLine) : TimeableLine :=
  { t with
    marker1 := { t.marker1 with style := t.marker2.style, feet := t.marker2.feet }
    marker2 := { t.marker2 with style := t.marker1.style, feet := t.marker1.feet } }

/-- Method `TimeableLine::CheckMarkers` (lines 207-214): if the right marker's
position dropped below the left one's, swap the two slots' styles and exchange
the `left_marker`/`right_marker` pointers. -/
def CheckMarkers (t : TimeableLine) : TimeableLine :=
  if t.rightMarker.position < t.leftMarker.position then
    { t.SwapStyles with leftIsM1 := !t.leftIsM1 }
  else t

/-- The raw position write half of `DialogueTimingMarker::SetPosition`:
store the new position into the given physical slot. -/
def SetSlot (t : TimeableLine) (s : Slot) (p : Int) : TimeableLine :=
  match s with
  | .M1 => { t with marker1 := { t.marker1 with position := p } }
  | .M2 => { t with marker2 := { t.marker2 with position := p } }

/-- Method `DialogueTimingMarker::SetPosition` (lines 246-249): write the position,
then let the owning line run `CheckMarkers`. -/
def SetPosition (t : TimeableLine) (s : Slot) (p : Int) : TimeableLine :=
  (t.SetSlot s p).CheckMarkers

/-- Method `TimeableLine::Apply` (lines 217-224): if a line is tracked, write the
left marker's position to its `Start` and the right marker's to its `End`. -/
def Apply (t : TimeableLine) : TimeableLine :=
  match t.line with
  | none => t
  | some L =>
    { t with line := some { L with Start := t.leftMarker.position,
                                   End := t.rightMarker.position } }

/-- Method `TimeableLine::SetLine` (lines 229-243): track the new line; when no line
was tracked before or the new line's `End` is positive, also reset the two
markers to the line's times (via `SetPosition`, so `CheckMarkers` runs after
each write) and return `true`; otherwise leave the markers alone and return
`false`. -/
def SetLine (t : TimeableLine) (L : AssLine) : TimeableLine × Bool :=
  if t.line.isNone || decide (0 < L.End) then
    let t1 := { t with line := some L }
    let t2 := t1.SetPosition .M1 L.Start
    let t3 := t2.SetPosition .M2 L.End
    (t3, true)
  else
    ({ t with line := some L }, false)

/-- Method `TimeableLine::ContainsMarker` (lines 201-204) with the spec's half-open
`TimeRange`: does either physical marker lie in `[b, e)`? -/
def ContainsMarker (t : TimeableLine) (b e : Int) : Bool :=
  (b ≤ t.marker1.position && t.marker1.position < e) ||
  (b ≤ t.marker2.position && t.marker2.position < e)

end TimeableLine

/-- The times `SetLine` followed by `Apply` leaves on the dialogue line
(spec §8 round-trip law). -/
def RoundTrip (t : TimeableLine) (L : AssLine) : Int × Int :=
  match ((t.SetLine L).1).Apply.line with
  | some l => (l.Start, l.End)
  | none => (0, 0)

/-- The concrete line of the C2 literal instance: `left = 1000`
(slot `marker1`, style tag 1, right feet), `right = 2000` (slot `marker2`,
style tag 2, left feet). -/
def tlC2 : TimeableLine :=
  { line := some ⟨0, 1000, 2000⟩
    marker1 := ⟨1000, 1, .FeetRight⟩
    marker2 := ⟨2000, 2, .FeetLeft⟩
    leftIsM1 := true }

/-- A `TimeableLine` that never had `SetLine` called on it, as built by the
`TimeableLine` constructor (both markers at 0). -/
def tlFresh : TimeableLine :=
  { line := none
    marker1 := ⟨0, 1, .FeetRight⟩
    marker2 := ⟨0, 2, .FeetLeft⟩
    leftIsM1 := true }

/-! ## The dialogue timing controller -/

/-- Modelled from the spec: `TimeRange` (declared in a header outside the
sources) is a half-open interval `[b, e)` of milliseconds with a `contains`
test. -/
structure TimeRange where
  b : Int
  e : Int
deriving DecidableEq, Repr

def TimeRange.contains (r : TimeRange) (t : Int) : Bool :=
  decide (r.b ≤ t) && decide (t < r.e)

/-- A pointer to a physical marker: the owning line (0 is the active line,
`i + 1` is `selected_lines[i]`) and which of its two slots.  C++ passes
`DialogueTimingMarker*`; pointer equality is equality of these references. -/
structure MRef where
  line : Nat
  slot : Slot
deriving DecidableEq, Repr

/-- The mutable state of `AudioTimingControllerDialogue` that the claims
touch, together with the external collaborators it reads:
the keyframe provider and video-position provider (modelled from the spec:
their `GetMarkers(range, out)` returns their positions inside `range`),
the document's event list (for the selection branch of `OnLeftClick`), the
`Audio/Auto/Commit` option, and the document's next commit id (modelled from
the spec: `Commit` returns a fresh id used for coalescing). -/
structure DlgState where
  active_line : TimeableLine
  selected_lines : List TimeableLine
  markers : List MRef
  modified_lines : List Nat
  commit_id : Int
  clicked_ms : Option Int
  keyframes : List Int
  video_pos : Option Int
  auto_commit : Bool
  events : List AssLine
  doc_next_id : Int
deriving DecidableEq, Repr

/-- Dereference a line id (0 = active line, `i+1` = `selected_lines[i]`). -/
def getTL (st : DlgState) (i : Nat) : TimeableLine :=
  match i with
  | 0 => st.active_line
  | n + 1 => st.selected_lines.getD n tlFresh

/-- Store back through a line id. -/
def setTL (st : DlgState) (i : Nat) (tl : TimeableLine) : DlgState :=
  match i with
  | 0 => { st with active_line := tl }
  | n + 1 => { st with selected_lines := st.selected_lines.set n tl }

/-- Read `marker->GetPosition()` for a marker reference. -/
def posOf (st : DlgState) (r : MRef) : Int :=
  match r.slot with
  | .M1 => (getTL st r.line).marker1.position
  | .M2 => (getTL st r.line).marker2.position

/-- Call `marker->SetPosition(p)`: write the slot and let the owning line run
`CheckMarkers`. -/
def setPositionAt (st : DlgState) (r : MRef) (p : Int) : DlgState :=
  setTL st r.line ((getTL st r.line).SetPosition r.slot p)

/-- The reference `line->GetLeftMarker()` currently denotes. -/
def leftRefOf (st : DlgState) (i : Nat) : MRef := ⟨i, (getTL st i).leftSlot⟩

/-- The reference `line->GetRightMarker()` currently denotes. -/
def rightRefOf (st : DlgState) (i : Nat) : MRef := ⟨i, (getTL st i).rightSlot⟩

/-- Method `TimeableLine::GetMarkers`: push the left marker, then the right one. -/
def lineMarkerRefs (st : DlgState) (i : Nat) : List MRef :=
  [leftRefOf st i, rightRefOf st i]

/-- Modelled from the spec: `AudioMarkerProviderKeyframes::GetMarkers` returns
the keyframe positions lying in the queried range. -/
def keyframeMarkersIn (st : DlgState) (r : TimeRange) : List Int :=
  st.keyframes.filter (fun k => r.contains k)

/-- Modelled from the spec: `VideoPositionMarkerProvider::GetMarkers` returns
the video position when it lies in the queried range. -/
def videoMarkersIn (st : DlgState) (r : TimeRange) : List Int :=
  match st.video_pos with
  | some v => if r.contains v then [v] else []
  | none => []

/-- Call `modified_lines.insert(...)`: `modified_lines` is a `std::set`, so an
insert keeps one copy of each line. -/
def insertModified (l : List Nat) (i : Nat) : List Nat :=
  if i ∈ l then l else l ++ [i]

/-- The `check` lambda of `SnapMarkers` (lines 713-718): keep whichever of
the previous best and `marker - pos` has the strictly smaller magnitude. -/
def snapCheck (best marker pos : Int) : Int :=
  if tabs (marker - pos) < tabs best then marker - pos else best

/-- The provider-candidate scan of `SnapMarkers` (lines 732-736): run
`check` over the keyframe/video markers, returning early (`none`, which the
caller turns into `return 0`) as soon as the distance hits 0. -/
def scanProviderMarkers (pos : Int) (cands : List Int) (best : Int) : Option Int :=
  match cands with
  | [] => some best
  | c :: rest =>
    let b := snapCheck best c pos
    if b = 0 then none else scanProviderMarkers pos rest b

/-- The inactive-marker scan of `SnapMarkers` (lines 738-743): like the
provider scan but stopping after the first candidate beyond `pos`. -/
def scanInactiveMarkers (pos : Int) (cands : List Int) (best : Int) : Option Int :=
  match cands with
  | [] => some best
  | c :: rest =>
    let b := snapCheck best c pos
    if b = 0 then none
    else if pos < c then some b
    else scanInactiveMarkers pos rest b

/-- Call `boost::lower_bound`: index of the first element not below `v`.  The C++
call is a binary search; on the sorted inputs arising in the runs below the
two coincide. -/
def lowerBoundCount (l : List Int) (v : Int) : Nat :=
  (l.takeWhile (fun x => decide (x < v))).length

/-- The `add_inactive` lambda of `SnapMarkers` (lines 690-696) with
`check = true`: skip markers outside `marker_range`, markers equal to the
last added position, and markers being moved; otherwise append the
position. -/
def addInactive (st : DlgState) (active : List MRef) (range : TimeRange)
    (acc : List Int) (r : MRef) : List Int :=
  let p := posOf st r
  if !(range.contains p) then acc
  else if decide (acc ≠ []) && decide (acc.getLast? = some p) then acc
  else if decide (r ∈ active) then acc
  else acc ++ [p]

/-- The per-active-marker loop of `SnapMarkers` (lines 720-744).  `prev` is
initialised to -1 and never reassigned in the source, so the
`pos == prev` test only ever skips markers sitting at -1. -/
def snapLoopActive (st : DlgState) (snap_range : Int) (inactive : List Int) :
    List MRef → Int → Option Int
  | [], best => some best
  | r :: rest, best =>
    let pos := posOf st r
    if pos = -1 then snapLoopActive st snap_range inactive rest best
    else
      let range : TimeRange := ⟨pos - snap_range, pos + snap_range⟩
      let provider := keyframeMarkersIn st range ++ videoMarkersIn st range
      match scanProviderMarkers pos provider best with
      | none => none
      | some b1 =>
        match scanInactiveMarkers pos
            (inactive.drop (lowerBoundCount inactive range.b)) b1 with
        | none => none
        | some b2 => snapLoopActive st snap_range inactive rest b2

/-- Method `AudioTimingControllerDialogue::SnapMarkers` (lines 667-752): find the
best snap delta for the moved markers among keyframe, video-position and
non-moved line markers; apply it to the moved markers when its magnitude is
within `snap_range`, and return it. -/
def SnapMarkers (st : DlgState) (snap_range : Int) (active : List MRef) :
    DlgState × Int :=
  if snap_range ≤ 0 || active.isEmpty then (st, 0) else
  let front := posOf st (active.headD ⟨0, .M1⟩)
  let mn := active.foldl (fun m r => min (posOf st r) m) front
  let mx := active.foldl (fun m r => max (posOf st r) m) front
  let marker_range : TimeRange := ⟨mn - snap_range, mx + snap_range⟩
  let moving_entire_selection := st.clicked_ms.isSome
  let inactive_markers : List Int :=
    if moving_entire_selection then []
    else
      ((List.range st.selected_lines.length).flatMap
          (fun i => lineMarkerRefs st (i + 1)) ++ lineMarkerRefs st 0).foldl
        (addInactive st active marker_range) []
  match snapLoopActive st snap_range inactive_markers active INTMAX with
  | none => (st, 0)
  | some d =>
    if snap_range < tabs d then (st, 0)
    else (active.foldl (fun s r => setPositionAt s r (posOf s r + d)) st, d)

/-- One `context->ass->Commit(...)` call as the controller issues it:
whether it was the user-triggered overload, the coalescing hint passed
(none for the user-triggered overload), and the amend target (a dialogue
line id, none for a null pointer). -/
structure CommitCall where
  user_triggered : Bool
  hint_id : Option Int
  amend : Option Nat
deriving DecidableEq, Repr

/-- The `for (auto line : modified_lines) line->Apply();` loop of
`DoCommit`.  Each `Apply` touches only its own line. -/
def applyModifiedLines (st : DlgState) : DlgState :=
  st.modified_lines.foldl (fun s i => setTL s i (getTL s i).Apply) st

/-- Method `AudioTimingControllerDialogue::DoCommit` (lines 442-465): when there are
modified lines, write their times back, issue a commit (uncoalesced and
resetting `commit_id` to -1 when user-triggered, otherwise hinted with the
stored `commit_id` and amending the single modified line if there is exactly
one, storing the returned id), then clear the modified set. -/
def DoCommit (st : DlgState) (user_triggered : Bool) : DlgState × Option CommitCall :=
  if st.modified_lines = [] then (st, none)
  else
    let stA := applyModifiedLines st
    if user_triggered then
      ({ stA with commit_id := -1, modified_lines := [],
                  doc_next_id := stA.doc_next_id + 1 },
       some ⟨true, none, none⟩)
    else
      let amend : Option Nat :=
        if stA.modified_lines.length = 1
        then ((getTL stA (stA.modified_lines.headD 0)).line).map (fun l => l.id)
        else none
      ({ stA with commit_id := stA.doc_next_id, modified_lines := [],
                  doc_next_id := stA.doc_next_id + 1 },
       some ⟨false, some stA.commit_id, amend⟩)

/-- The insertion step of the slice re-sort (`sort(begin, end, ...)` sorts by
position; any position-ordered rearrangement realises it). -/
def insertByPos (key : MRef → Int) (x : MRef) : List MRef → List MRef
  | [] => [x]
  | y :: ys => if key x ≤ key y then x :: y :: ys else y :: insertByPos key x ys

/-- Sort a slice of the marker vector by current position. -/
def sortByPos (key : MRef → Int) (l : List MRef) : List MRef :=
  l.foldr (insertByPos key) []

/-- Method `AudioTimingControllerDialogue::SetMarkers` (lines 581-628): compute the
group-drag shift from `clicked_ms`, locate the to-be-resorted subrange
`[b, e)` of the sorted marker vector by binary search over the pre-move
positions, move the markers (each move running `CheckMarkers` and recording
the owning line as modified), run `SnapMarkers`, shift `clicked_ms` by the
snap delta, re-sort exactly the slice `[b, e)`, and auto-commit if the
option is on. -/
def SetMarkers (st : DlgState) (upd_markers : List MRef) (ms snap_range : Int) :
    DlgState :=
  if upd_markers = [] then st else
  let shift : Int := match st.clicked_ms with | some c => ms - c | none => 0
  let st1 := if shift ≠ 0 then { st with clicked_ms := some ms } else st
  let bounds := upd_markers.foldl
    (fun (p : Int × Int) r =>
      let pos := posOf st1 r
      if shift < 0 then (min (pos + shift) p.1, max pos p.2)
      else (min pos p.1, max (pos + shift) p.2))
    (ms, ms)
  let min_ms := bounds.1
  let max_ms := bounds.2
  let b := (st1.markers.takeWhile (fun r => decide (posOf st1 r < min_ms))).length
  let e := b + ((st1.markers.drop b).takeWhile
    (fun r => !decide (max_ms < posOf st1 r))).length
  let group := st1.clicked_ms.isSome
  let st2 := upd_markers.foldl
    (fun s r =>
      let s1 := setPositionAt s r (if group then posOf s r + shift else ms)
      { s1 with modified_lines := insertModified s1.modified_lines r.line })
    st1
  let snapRes := SnapMarkers st2 snap_range upd_markers
  let st3 := snapRes.1
  let st4 := if group
             then { st3 with clicked_ms := st3.clicked_ms.map (· + snapRes.2) }
             else st3
  let slice := sortByPos (posOf st4) ((st4.markers.drop b).take (e - b))
  let st5 := { st4 with markers := st4.markers.take b ++ slice ++ st4.markers.drop e }
  if st5.auto_commit then (DoCommit st5 false).1 else st5

/-- What `OnLeftClick` produces: the possibly-mutated controller state, the
returned marker list, and the `SetSelectionAndActive` request issued to the
selection controller (the index into the document's event list), if any. -/
structure ClickResult where
  state : DlgState
  ret : List MRef
  select_request : Option Nat
deriving DecidableEq, Repr

/-- Method `AudioTimingControllerDialogue::OnLeftClick` (lines 518-560).
`ctrl_down` is accepted and ignored, as in the source. -/
def OnLeftClick (st : DlgState) (ms : Int) (ctrl_down alt_down : Bool)
    (sensitivity snap_range : Int) : ClickResult :=
  let st0 := { st with clicked_ms := none }
  if alt_down then
    let st1 := { st0 with clicked_ms := some ms }
    let ret := lineMarkerRefs st1 0 ++
      (List.range st1.selected_lines.length).flatMap (fun i => lineMarkerRefs st1 (i + 1))
    ⟨st1, ret, none⟩
  else
    -- only `clicked_ms` differs between `st0` and `st`, so marker reads and
    -- the event scan below go through `st` unchanged
    let leftR := leftRefOf st 0
    let rightR := rightRefOf st 0
    let dist_l := tabs (posOf st leftR - ms)
    let dist_r := tabs (posOf st rightR - ms)
    if sensitivity < dist_l ∧ sensitivity < dist_r then
      ⟨st0, [], st.events.findIdx? (fun L => decide (L.Start ≤ ms ∧ ms ≤ L.End))⟩
    else
      let clicked := if dist_l ≤ dist_r then leftR else rightR
      if clicked = leftR then
        ⟨SetMarkers st0 [clicked] ms snap_range, [clicked], none⟩
      else
        ⟨st0, [clicked], none⟩

/-- Is an integer sequence nondecreasing? -/
def sortedInts : List Int → Bool
  | [] => true
  | [_] => true
  | a :: b :: rest => decide (a ≤ b) && sortedInts (b :: rest)

/-- The positions of the controller's marker vector, in vector order. -/
def posList (st : DlgState) : List Int := st.markers.map (posOf st)

/-! ### Concrete controller states for the literal runs -/

/-- C1 failing state: active line `[1000, 2000]`, one companion
`[3000, 4000]`, sorted marker vector, a pending group-drag anchor
`clicked_ms = 1000` (as left by an alt-click at 1000), a keyframe at 3049
and no other snap sources. -/
def stC1 : DlgState :=
  { active_line := { line := some ⟨1, 1000, 2000⟩
                     marker1 := ⟨1000, 1, .FeetRight⟩
                     marker2 := ⟨2000, 2, .FeetLeft⟩
                     leftIsM1 := true }
    selected_lines := [{ line := some ⟨2, 3000, 4000⟩
                         marker1 := ⟨3000, 3, .FeetRight⟩
                         marker2 := ⟨4000, 3, .FeetLeft⟩
                         leftIsM1 := true }]
    markers := [⟨0, .M1⟩, ⟨0, .M2⟩, ⟨1, .M1⟩, ⟨1, .M2⟩]
    modified_lines := []
    commit_id := -1
    clicked_ms := some 1000
    keyframes := [3049]
    video_pos := none
    auto_commit := false
    events := []
    doc_next_id := 5 }

/-- C3 scenario state: active line `[1000, 2000]`, companion `[1100, 1900]`,
keyframe at 980, no other snap candidates, no pending drag. -/
def stC3 : DlgState :=
  { active_line := { line := some ⟨1, 1000, 2000⟩
                     marker1 := ⟨1000, 1, .FeetRight⟩
                     marker2 := ⟨2000, 2, .FeetLeft⟩
                     leftIsM1 := true }
    selected_lines := [{ line := some ⟨2, 1100, 1900⟩
                         marker1 := ⟨1100, 3, .FeetRight⟩
                         marker2 := ⟨1900, 3, .FeetLeft⟩
                         leftIsM1 := true }]
    markers := [⟨0, .M1⟩, ⟨1, .M1⟩, ⟨1, .M2⟩, ⟨0, .M2⟩]
    modified_lines := []
    commit_id := -1
    clicked_ms := none
    keyframes := [980]
    video_pos := none
    auto_commit := false
    events := []
    doc_next_id := 5 }

/-- The alt-click of the C3 scenario. -/
def clickC3 : ClickResult := OnLeftClick stC3 1500 false true 10 50

/-- The subsequent drag of the four returned markers to 1520 with
`snap_range = 50`. -/
def dragC3 : DlgState := SetMarkers clickC3.state clickC3.ret 1520 50

/-- The same drag with snapping disabled, exhibiting the pre-snap shift. -/
def dragC3NoSnap : DlgState := SetMarkers clickC3.state clickC3.ret 1520 0

/-- C4 witness state: like the C3 state but with two document events and no
pending drag anchor. -/
def stC4 : DlgState :=
  { stC3 with events := [⟨9, 0, 500⟩, ⟨10, 400, 800⟩] }

/-- C5 witness state: the C3 state with both lines marked modified. -/
def stC5 : DlgState :=
  { stC3 with modified_lines := [0, 1] }

end Aegisub

namespace Aegisub

/-- C6: `GetZoomLevelFactor` equals the claimed zoom ladder at every integer
level, and in particular maps 0 ↦ 100, 4 ↦ 200, −3 ↦ 70, −8 ↦ 35, −15 ↦ 16. -/
theorem C6_zoom_ladder :
    (∀ level : Int, GetZoomLevelFactor level = claimZoomFactor level) ∧
    GetZoomLevelFactor 0 = 100 ∧ GetZoomLevelFactor 4 = 200 ∧
    GetZoomLevelFactor (-3) = 70 ∧ GetZoomLevelFactor (-8) = 35 ∧
    GetZoomLevelFactor (-15) = 16 := by
  refine ⟨fun level => ?_, by decide, by decide, by decide, by decide, by decide⟩
  unfold GetZoomLevelFactor claimZoomFactor zoomFactorClamp
  simp only [max_def]
  split_ifs <;> omega

/-- C10: the zoom factor is at least 1 at every level, hence the division
`new_ms_per_pixel = 100 * (1000/50) / factor` in `SetZoomLevel` never divides
by zero or a negative number and its result is strictly positive. -/
theorem C10_factor_positive :
    (∀ level : Int, 1 ≤ GetZoomLevelFactor level) ∧
    (∀ level : Int, 0 < newMsPerPixel level) := by
  have h1 : ∀ level : Int, 1 ≤ GetZoomLevelFactor level := by
    intro level
    unfold GetZoomLevelFactor zoomFactorClamp
    split_ifs <;> omega
  refine ⟨h1, fun level => ?_⟩
  have hf : (0 : ℚ) < (GetZoomLevelFactor level : ℚ) := by
    exact_mod_cast lt_of_lt_of_le Int.zero_lt_one (h1 level)
  unfold newMsPerPixel
  positivity

/-- C7 counterexample: at `ms_per_pixel = 10000` (px/sec = 0.1) the code does
not select `(min, 60000, 10)`: `0.1 > 1/9` fails, so the selector falls
through to the `10min` row. -/
theorem C7_tier_counterexample :
    ChangeZoomScale 10000 ≠ ((ScaleMinor.Minute, 60000, 10) : ScaleMinor × ℚ × Nat) := by
  unfold ChangeZoomScale
  norm_num

/-- C7 (amended): the selector agrees with the claimed threshold table on
`px_per_sec = 1000 / ms_per_pixel`; `ms_per_pixel = 0.3` selects the `ms`
tier, and `ms_per_pixel = 10000` (px/sec = 0.1 ∈ (1/90, 1/9]) selects the
`10min` tier `(600000, 6)`. -/
theorem C7_tier_table :
    (∀ mpp : ℚ, 0 < mpp → ChangeZoomScale mpp = claimScaleTier (1000 / mpp)) ∧
    ChangeZoomScale (3/10) = (.Millisecond, 1, 10) ∧
    ChangeZoomScale 10000 = (.Decaminute, 600000, 6) := by
  refine ⟨fun mpp _ => rfl, ?_, ?_⟩ <;> (unfold ChangeZoomScale; norm_num)

/-- C7 witness: the tier table theorem applied at `ms_per_pixel = 10000`. -/
theorem C7_tier_table_witness :
    ChangeZoomScale 10000 = claimScaleTier (1000 / 10000) :=
  C7_tier_table.1 10000 (by norm_num)

/-- C8: for every `pixel_audio_width`, `client_width` and requested pixel
position (negative or past the end included), the stored scroll position is
clamped into `[0, max 0 (pixel_audio_width - client_width)]`. -/
theorem C8_scroll_clamped :
    ∀ pixel_audio_width client_width pixel_position : Int,
      0 ≤ ScrollPixelToLeft pixel_audio_width client_width pixel_position ∧
      ScrollPixelToLeft pixel_audio_width client_width pixel_position ≤
        max 0 (pixel_audio_width - client_width) := by
  intro paw cw pp
  unfold ScrollPixelToLeft
  simp only [max_def]
  split_ifs <;> omega

/-! ### Lemmas about `TimeableLine` -/

namespace TimeableLine

lemma checkMarkers_marker1_position (t : TimeableLine) :
    t.CheckMarkers.marker1.position = t.marker1.position := by
  unfold CheckMarkers SwapStyles
  split_ifs <;> rfl

lemma checkMarkers_marker2_position (t : TimeableLine) :
    t.CheckMarkers.marker2.position = t.marker2.position := by
  unfold CheckMarkers SwapStyles
  split_ifs <;> rfl

lemma checkMarkers_line (t : TimeableLine) :
    t.CheckMarkers.line = t.line := by
  unfold CheckMarkers SwapStyles
  split_ifs <;> rfl

lemma setPosition_marker1_position (t : TimeableLine) (s : Slot) (p : Int) :
    (t.SetPosition s p).marker1.position =
      (if s = .M1 then p else t.marker1.position) := by
  unfold SetPosition
  rw [checkMarkers_marker1_position]
  cases s <;> rfl

lemma setPosition_marker2_position (t : TimeableLine) (s : Slot) (p : Int) :
    (t.SetPosition s p).marker2.position =
      (if s = .M2 then p else t.marker2.position) := by
  unfold SetPosition
  rw [checkMarkers_marker2_position]
  cases s <;> rfl

lemma setPosition_line (t : TimeableLine) (s : Slot) (p : Int) :
    (t.SetPosition s p).line = t.line := by
  unfold SetPosition
  rw [checkMarkers_line]
  cases s <;> rfl

/-- After `CheckMarkers` the `left ≤ right` invariant holds. -/
lemma checkMarkers_sorted (t : TimeableLine) :
    t.CheckMarkers.leftMarker.position ≤ t.CheckMarkers.rightMarker.position := by
  unfold CheckMarkers SwapStyles leftMarker rightMarker
  cases h : t.leftIsM1 <;> simp [h] <;> split_ifs <;> simp_all <;> omega

/-- After `SetPosition` the `left ≤ right` invariant holds. -/
lemma setPosition_sorted (t : TimeableLine) (s : Slot) (p : Int) :
    (t.SetPosition s p).leftMarker.position ≤ (t.SetPosition s p).rightMarker.position :=
  checkMarkers_sorted _

/-- When the invariant holds, the left marker is the positionwise minimum of
the two physical markers and the right marker the maximum. -/
lemma leftMarker_min (t : TimeableLine)
    (h : t.leftMarker.position ≤ t.rightMarker.position) :
    t.leftMarker.position = min t.marker1.position t.marker2.position ∧
    t.rightMarker.position = max t.marker1.position t.marker2.position := by
  unfold leftMarker rightMarker at *
  cases hb : t.leftIsM1 <;> simp [hb] at h ⊢ <;> omega

end TimeableLine

/-- C2: after every single-marker `SetPosition`, `left.position ≤
right.position`; the written slot holds the new position and the other slot
is untouched (the physical markers never move between slots); exactly when
the write put the right marker below the left one, the two slots' styles and
feet are exchanged and the `left`/`right` pointers swap.  Literal instance:
from `left = 1000, right = 2000`, setting the left marker to 2500 yields
`marker1 = 2500, marker2 = 2000` with `left → marker2 = 2000` and
`right → marker1 = 2500` and the styles/feet migrated. -/
theorem C2_check_markers :
    (∀ (t : TimeableLine) (s : Slot) (p : Int),
      (t.SetPosition s p).leftMarker.position ≤ (t.SetPosition s p).rightMarker.position ∧
      (t.SetPosition s p).marker1.position = (if s = .M1 then p else t.marker1.position) ∧
      (t.SetPosition s p).marker2.position = (if s = .M2 then p else t.marker2.position) ∧
      (t.SetPosition s p).leftIsM1 =
        (if (t.SetSlot s p).rightMarker.position < (t.SetSlot s p).leftMarker.position
         then !t.leftIsM1 else t.leftIsM1) ∧
      (t.SetPosition s p).marker1.style =
        (if (t.SetSlot s p).rightMarker.position < (t.SetSlot s p).leftMarker.position
         then t.marker2.style else t.marker1.style) ∧
      (t.SetPosition s p).marker1.feet =
        (if (t.SetSlot s p).rightMarker.position < (t.SetSlot s p).leftMarker.position
         then t.marker2.feet else t.marker1.feet) ∧
      (t.SetPosition s p).marker2.style =
        (if (t.SetSlot s p).rightMarker.position < (t.SetSlot s p).leftMarker.position
         then t.marker1.style else t.marker2.style) ∧
      (t.SetPosition s p).marker2.feet =
        (if (t.SetSlot s p).rightMarker.position < (t.SetSlot s p).leftMarker.position
         then t.marker1.feet else t.marker2.feet)) ∧
    (tlC2.SetPosition tlC2.leftSlot 2500).marker1.position = 2500 ∧
    (tlC2.SetPosition tlC2.leftSlot 2500).marker2.position = 2000 ∧
    (tlC2.SetPosition tlC2.leftSlot 2500).leftMarker.position = 2000 ∧
    (tlC2.SetPosition tlC2.leftSlot 2500).rightMarker.position = 2500 ∧
    (tlC2.SetPosition tlC2.leftSlot 2500).leftIsM1 = false ∧
    (tlC2.SetPosition tlC2.leftSlot 2500).marker1.style = 2 ∧
    (tlC2.SetPosition tlC2.leftSlot 2500).marker2.style = 1 ∧
    (tlC2.SetPosition tlC2.leftSlot 2500).marker1.feet = .FeetLeft ∧
    (tlC2.SetPosition tlC2.leftSlot 2500).marker2.feet = .FeetRight := by
  refine ⟨fun t s p => ?_, by decide, by decide, by decide, by decide, by decide,
    by decide, by decide, by decide, by decide⟩
  refine ⟨TimeableLine.setPosition_sorted t s p,
    TimeableLine.setPosition_marker1_position t s p,
    TimeableLine.setPosition_marker2_position t s p, ?_, ?_, ?_, ?_, ?_⟩ <;>
  · unfold TimeableLine.SetPosition TimeableLine.CheckMarkers TimeableLine.SwapStyles
    cases s <;> (split_ifs <;> rfl)

/-- C9 counterexample: on a fresh `TimeableLine` (no line bound yet) and a
line with times `(0, 0)`, `SetLine` resets the markers (it returns `true`
because no line was bound), and `Apply` writes back `(0, 0)`: the round trip
preserves the times even though `End > 0` fails, so the claimed "iff
`end > 0`" is false. -/
theorem C9_roundtrip_counterexample :
    ¬ ((RoundTrip tlFresh ⟨7, 0, 0⟩ =
          ((⟨7, 0, 0⟩ : AssLine).Start, (⟨7, 0, 0⟩ : AssLine).End)) ↔
       0 < (⟨7, 0, 0⟩ : AssLine).End) := by
  decide

/-- C9 (amended): `SetLine` returns `true` iff no line was bound previously
or the new line's `End` is positive; when it returns `true` the markers are
reset to the line's times, and when it returns `false` they are untouched.
`SetLine` followed by `Apply` preserves `(Start, End)` iff either the markers
were reset and `Start ≤ End`, or they were not reset but already sat at
exactly `(Start, End)`. -/
theorem C9_setline_apply (t : TimeableLine) (L : AssLine) :
    ((t.SetLine L).2 = true ↔ (t.line = none ∨ 0 < L.End)) ∧
    ((t.SetLine L).2 = true →
      ((t.SetLine L).1).marker1.position = L.Start ∧
      ((t.SetLine L).1).marker2.position = L.End) ∧
    ((t.SetLine L).2 = false →
      ((t.SetLine L).1).marker1 = t.marker1 ∧
      ((t.SetLine L).1).marker2 = t.marker2 ∧
      ((t.SetLine L).1).leftIsM1 = t.leftIsM1) ∧
    (RoundTrip t L = (L.Start, L.End) ↔
      (((t.SetLine L).2 = true ∧ L.Start ≤ L.End) ∨
       ((t.SetLine L).2 = false ∧ t.leftMarker.position = L.Start ∧
        t.rightMarker.position = L.End))) := by
  by_cases hc : (t.line.isNone || decide (0 < L.End)) = true
  · have hret : (t.SetLine L).2 = true := by
      unfold TimeableLine.SetLine
      rw [if_pos hc]
    have hval : (t.SetLine L).1 =
        (({ t with line := some L } : TimeableLine).SetPosition .M1 L.Start).SetPosition
          .M2 L.End := by
      unfold TimeableLine.SetLine
      rw [if_pos hc]
    have hm1 : ((t.SetLine L).1).marker1.position = L.Start := by
      rw [hval, TimeableLine.setPosition_marker1_position,
        TimeableLine.setPosition_marker1_position]
      simp
    have hm2 : ((t.SetLine L).1).marker2.position = L.End := by
      rw [hval, TimeableLine.setPosition_marker2_position]
      simp
    have hline : ((t.SetLine L).1).line = some L := by
      rw [hval, TimeableLine.setPosition_line, TimeableLine.setPosition_line]
    have hsorted := hval ▸ TimeableLine.setPosition_sorted
      (({ t with line := some L } : TimeableLine).SetPosition .M1 L.Start) .M2 L.End
    obtain ⟨hlmin, hrmax⟩ := TimeableLine.leftMarker_min _ hsorted
    have hrt : RoundTrip t L =
        (min L.Start L.End, max L.Start L.End) := by
      unfold RoundTrip
      rw [show ((t.SetLine L).1).Apply.line =
            some { L with Start := ((t.SetLine L).1).leftMarker.position,
                          End := ((t.SetLine L).1).rightMarker.position } by
        unfold TimeableLine.Apply
        rw [hline]]
      rw [hlmin, hrmax, hm1, hm2]
    refine ⟨by simp [hret, ← Option.isNone_iff_eq_none, Bool.or_eq_true] at hc ⊢; tauto,
      fun _ => ⟨hm1, hm2⟩, fun hf => by rw [hret] at hf; exact absurd hf (by simp), ?_⟩
    rw [hrt, hret]
    constructor
    · intro h
      have h1 : min L.Start L.End = L.Start := congrArg Prod.fst h
      left
      exact ⟨rfl, min_eq_left_iff.mp h1⟩
    · rintro (⟨-, hle⟩ | ⟨hfalse, -⟩)
      · rw [min_eq_left hle, max_eq_right hle]
      · exact absurd hfalse (by simp)
  · have hret : (t.SetLine L).2 = false := by
      unfold TimeableLine.SetLine
      rw [if_neg hc]
    have hval : (t.SetLine L).1 = { t with line := some L } := by
      unfold TimeableLine.SetLine
      rw [if_neg hc]
    have hrt : RoundTrip t L = (t.leftMarker.position, t.rightMarker.position) := by
      unfold RoundTrip
      rw [hval]
      unfold TimeableLine.Apply TimeableLine.leftMarker TimeableLine.rightMarker
      cases t.leftIsM1 <;> rfl
    refine ⟨?_, fun ht => by rw [hret] at ht; exact absurd ht (by simp),
      fun _ => by rw [hval]; exact ⟨rfl, rfl, rfl⟩, ?_⟩
    · rw [hret]
      simp only [Bool.or_eq_true, Option.isNone_iff_eq_none, decide_eq_true_eq] at hc
      simp only [Bool.false_eq_true, false_iff]
      tauto
    · rw [hrt, hret]
      constructor
      · intro h
        right
        exact ⟨rfl, congrArg Prod.fst h, congrArg Prod.snd h⟩
      · rintro (⟨htrue, -⟩ | ⟨-, h1, h2⟩)
        · exact absurd htrue (by simp)
        · rw [h1, h2]

/-! ### Lemmas about the controller state -/

lemma leftRef_ne_rightRef (st : DlgState) (i : Nat) :
    leftRefOf st i ≠ rightRefOf st i := by
  unfold leftRefOf rightRefOf TimeableLine.leftSlot TimeableLine.rightSlot
  cases (getTL st i).leftIsM1 <;> simp

lemma getTL_setTL_self (st : DlgState) (i : Nat) (tl : TimeableLine)
    (h : i ≤ st.selected_lines.length) :
    getTL (setTL st i tl) i = tl := by
  match i with
  | 0 => rfl
  | n + 1 =>
    have hn : n < st.selected_lines.length := h
    simp [getTL, setTL, List.getD_eq_getElem?_getD, List.getElem?_set_self, hn]

lemma getTL_setTL_ne (st : DlgState) (i j : Nat) (tl : TimeableLine)
    (h : i ≠ j) :
    getTL (setTL st i tl) j = getTL st j := by
  match i, j with
  | 0, 0 => exact absurd rfl h
  | 0, m + 1 => rfl
  | n + 1, 0 => rfl
  | n + 1, m + 1 =>
    have hnm : n ≠ m := fun he => h (by rw [he])
    simp [getTL, setTL, List.getD_eq_getElem?_getD, List.getElem?_set_ne hnm]

lemma setTL_selected_length (st : DlgState) (i : Nat) (tl : TimeableLine) :
    (setTL st i tl).selected_lines.length = st.selected_lines.length := by
  match i with
  | 0 => rfl
  | n + 1 => simp [setTL]

lemma setTL_scalar_fields (st : DlgState) (i : Nat) (tl : TimeableLine) :
    (setTL st i tl).modified_lines = st.modified_lines ∧
    (setTL st i tl).commit_id = st.commit_id ∧
    (setTL st i tl).doc_next_id = st.doc_next_id := by
  match i with
  | 0 => exact ⟨rfl, rfl, rfl⟩
  | n + 1 => exact ⟨rfl, rfl, rfl⟩

/-- The apply loop leaves any line not in the iterated id list untouched. -/
lemma applyFold_getTL_not_mem (ids : List Nat) (st : DlgState) (j : Nat)
    (hj : j ∉ ids) :
    getTL (ids.foldl (fun s i => setTL s i (getTL s i).Apply) st) j = getTL st j := by
  induction ids generalizing st with
  | nil => rfl
  | cons a rest ih =>
    have hja : j ≠ a := fun h => hj (h ▸ List.mem_cons_self a rest)
    have hjr : j ∉ rest := fun h => hj (List.mem_cons_of_mem a h)
    rw [List.foldl_cons, ih _ hjr, getTL_setTL_ne _ _ _ _ (fun h => hja h.symm)]

/-- The apply loop applies each listed line exactly once. -/
lemma applyFold_getTL_mem (ids : List Nat) (st : DlgState) (j : Nat)
    (hmem : j ∈ ids) (hnd : ids.Nodup)
    (hv : j ≤ st.selected_lines.length) :
    getTL (ids.foldl (fun s i => setTL s i (getTL s i).Apply) st) j =
      (getTL st j).Apply := by
  induction ids generalizing st with
  | nil => cases hmem
  | cons a rest ih =>
    rw [List.foldl_cons]
    have hnd' := List.nodup_cons.mp hnd
    rcases List.mem_cons.mp hmem with rfl | hmem'
    · rw [applyFold_getTL_not_mem rest _ j hnd'.1, getTL_setTL_self _ _ _ hv]
    · have hne : a ≠ j := fun h => hnd'.1 (h ▸ hmem')
      rw [ih _ hmem' hnd'.2 (by rw [setTL_selected_length]; exact hv),
        getTL_setTL_ne _ _ _ _ hne]

/-- The apply loop only rewrites lines: the scalar controller fields are
untouched. -/
lemma applyFold_scalar_fields (ids : List Nat) (st : DlgState) :
    (ids.foldl (fun s i => setTL s i (getTL s i).Apply) st).modified_lines =
      st.modified_lines ∧
    (ids.foldl (fun s i => setTL s i (getTL s i).Apply) st).commit_id =
      st.commit_id ∧
    (ids.foldl (fun s i => setTL s i (getTL s i).Apply) st).doc_next_id =
      st.doc_next_id ∧
    (ids.foldl (fun s i => setTL s i (getTL s i).Apply) st).selected_lines.length =
      st.selected_lines.length := by
  induction ids generalizing st with
  | nil => exact ⟨rfl, rfl, rfl, rfl⟩
  | cons a rest ih =>
    rw [List.foldl_cons]
    obtain ⟨h1, h2, h3⟩ := setTL_scalar_fields st a (getTL st a).Apply
    obtain ⟨i1, i2, i3, i4⟩ := ih (setTL st a (getTL st a).Apply)
    exact ⟨i1.trans h1, i2.trans h2, i3.trans h3,
      i4.trans (setTL_selected_length st a _)⟩

/-- Method `Apply` rewrites the tracked line's times, not its identity. -/
lemma apply_line_id (t : TimeableLine) :
    (t.Apply.line).map (fun l => l.id) = (t.line).map (fun l => l.id) := by
  cases h : t.line <;> simp [TimeableLine.Apply, h]

/-! ### The claims about the controller -/

/-- C1: the marker index is NOT sorted at every externally observable moment.
From the sorted reachable state `stC1` (active `[1000, 2000]`, companion
`[3000, 4000]`, group-drag anchor `clicked_ms = 1000` left by an alt-click,
keyframe at 3049), the call `SetMarkers([active left], ms = 2900,
snap_range = 150)` moves the marker to 2900, then `SnapMarkers` (group drag,
so no inactive-marker candidates) snaps it to the keyframe at 3049 — past the
upper bound 2900 of the re-sort slice computed before the snap — so after the
slice re-sort the vector reads `[2000, 3049, 3000, 4000]`, unsorted, when the
notifications fire. -/
theorem C1_snap_escapes_resort_slice :
    sortedInts (posList stC1) = true ∧
    posList (SetMarkers stC1 [⟨0, .M1⟩] 2900 150) = [2000, 3049, 3000, 4000] ∧
    sortedInts (posList (SetMarkers stC1 [⟨0, .M1⟩] 2900 150)) = false := by
  decide

/-- C3: the literal group-drag-with-snap scenario.  Alt-click at 1500 sets
`clicked_ms = 1500` and returns the four markers of the active line and its
companion; dragging them to 1520 with `snap_range = 50` shifts them by 20 to
`{1020, 2020, 1120, 1920}` (exhibited by the same drag with snapping off),
and with snapping on the keyframe at 980 is found for position 1020 at delta
-40, within range, so all four markers land at `{980, 1980, 1080, 1880}` and
`clicked_ms` ends at 1480. -/
theorem C3_group_drag_with_snap :
    clickC3.state.clicked_ms = some 1500 ∧
    clickC3.ret = [⟨0, .M1⟩, ⟨0, .M2⟩, ⟨1, .M1⟩, ⟨1, .M2⟩] ∧
    clickC3.ret.length = 4 ∧
    dragC3NoSnap.active_line.leftMarker.position = 1020 ∧
    dragC3NoSnap.active_line.rightMarker.position = 2020 ∧
    (dragC3NoSnap.selected_lines.getD 0 tlFresh).leftMarker.position = 1120 ∧
    (dragC3NoSnap.selected_lines.getD 0 tlFresh).rightMarker.position = 1920 ∧
    dragC3.active_line.leftMarker.position = 980 ∧
    dragC3.active_line.rightMarker.position = 1980 ∧
    (dragC3.selected_lines.getD 0 tlFresh).leftMarker.position = 1080 ∧
    (dragC3.selected_lines.getD 0 tlFresh).rightMarker.position = 1880 ∧
    dragC3.clicked_ms = some 1480 := by
  decide

/-- C4: `OnLeftClick` without alt.  When both active markers are farther than
`sensitivity` from the click, the click returns no markers and requests
selection of the first document line whose `[Start, End]` contains the click
(the source tests `ms >= Start && ms <= End`); otherwise it returns exactly
the closer marker (ties to the left one), requests no selection change, and
— exactly when the chosen marker is the left one — moves it to the click
through the normal `SetMarkers` drag path. -/
theorem C4_left_click_dispatch (st : DlgState) (ms sensitivity snap_range : Int) :
    (sensitivity < tabs (posOf st (leftRefOf st 0) - ms) ∧
     sensitivity < tabs (posOf st (rightRefOf st 0) - ms) →
      (OnLeftClick st ms false false sensitivity snap_range).ret = [] ∧
      (OnLeftClick st ms false false sensitivity snap_range).select_request =
        st.events.findIdx? (fun L => decide (L.Start ≤ ms ∧ ms ≤ L.End)) ∧
      (OnLeftClick st ms false false sensitivity snap_range).state =
        { st with clicked_ms := none }) ∧
    (¬ (sensitivity < tabs (posOf st (leftRefOf st 0) - ms) ∧
        sensitivity < tabs (posOf st (rightRefOf st 0) - ms)) →
      (OnLeftClick st ms false false sensitivity snap_range).select_request = none ∧
      (OnLeftClick st ms false false sensitivity snap_range).ret =
        [if tabs (posOf st (leftRefOf st 0) - ms) ≤
            tabs (posOf st (rightRefOf st 0) - ms)
         then leftRefOf st 0 else rightRefOf st 0] ∧
      (OnLeftClick st ms false false sensitivity snap_range).state =
        (if tabs (posOf st (leftRefOf st 0) - ms) ≤
            tabs (posOf st (rightRefOf st 0) - ms)
         then SetMarkers { st with clicked_ms := none } [leftRefOf st 0] ms snap_range
         else { st with clicked_ms := none })) := by
  constructor
  · intro hc
    unfold OnLeftClick
    simp only [Bool.false_eq_true, if_false, if_pos hc]
    exact ⟨by trivial, by trivial, by trivial⟩
  · intro hn
    unfold OnLeftClick
    simp only [Bool.false_eq_true, if_false, if_neg hn]
    by_cases hd : tabs (posOf st (leftRefOf st 0) - ms) ≤
        tabs (posOf st (rightRefOf st 0) - ms)
    · simp only [if_pos hd]
      exact ⟨by trivial, by trivial, by trivial⟩
    · simp only [if_neg hd,
        if_neg (fun h => leftRef_ne_rightRef st 0 (Eq.symm h))]
      exact ⟨by trivial, by trivial, by trivial⟩

/-- C4 witness: on `stC4` a click at 450 is far from both active markers
(1000 and 2000) with sensitivity 10, so no markers are returned and the
first document line containing 450 — index 0, times `[0, 500]` — is
requested as the new selection and active line. -/
theorem C4_left_click_dispatch_witness :
    (OnLeftClick stC4 450 false false 10 0).ret = [] ∧
    (OnLeftClick stC4 450 false false 10 0).select_request = some 0 := by
  have h := (C4_left_click_dispatch stC4 450 10 0).1 (by decide)
  exact ⟨h.1, by rw [h.2.1]; decide⟩

/-- C5: `DoCommit` commit policy.  The modified set is empty afterwards in
every case; an empty set is a no-op; otherwise every modified line has its
marker times applied to its dialogue line, a user-triggered commit carries
no hint and no amend target and resets `commit_id` to -1, and an
auto-commit carries the stored `commit_id` as hint, amends the single
modified line exactly when there is exactly one, and stores the id the
document returns. -/
theorem C5_do_commit_policy (st : DlgState) (user_triggered : Bool)
    (hv : ∀ i ∈ st.modified_lines, i ≤ st.selected_lines.length)
    (hnd : st.modified_lines.Nodup) :
    ((DoCommit st user_triggered).1).modified_lines = [] ∧
    (st.modified_lines = [] →
      (DoCommit st user_triggered).1 = st ∧ (DoCommit st user_triggered).2 = none) ∧
    (st.modified_lines ≠ [] →
      (∀ i ∈ st.modified_lines,
        getTL (DoCommit st user_triggered).1 i = (getTL st i).Apply) ∧
      (user_triggered = true →
        (DoCommit st user_triggered).2 = some ⟨true, none, none⟩ ∧
        ((DoCommit st user_triggered).1).commit_id = -1) ∧
      (user_triggered = false →
        ((DoCommit st user_triggered).1).commit_id = st.doc_next_id ∧
        (DoCommit st user_triggered).2 = some ⟨false, some st.commit_id,
          if st.modified_lines.length = 1
          then ((getTL st (st.modified_lines.headD 0)).line).map (fun l => l.id)
          else none⟩)) := by
  by_cases hemp : st.modified_lines = []
  · unfold DoCommit
    rw [if_pos hemp]
    exact ⟨hemp, fun _ => ⟨rfl, rfl⟩, fun hne => absurd hemp hne⟩
  · have happly : ∀ i ∈ st.modified_lines,
        getTL (applyModifiedLines st) i = (getTL st i).Apply := by
      intro i hi
      exact applyFold_getTL_mem st.modified_lines st i hi hnd (hv i hi)
    obtain ⟨hf1, hf2, hf3, hf4⟩ := applyFold_scalar_fields st.modified_lines st
    have hAmod : (applyModifiedLines st).modified_lines = st.modified_lines := hf1
    have hAcommit : (applyModifiedLines st).commit_id = st.commit_id := hf2
    have hAdoc : (applyModifiedLines st).doc_next_id = st.doc_next_id := hf3
    unfold DoCommit
    rw [if_neg hemp]
    refine ⟨?_, fun he => absurd he hemp, fun _ => ⟨?_, ?_, ?_⟩⟩
    · cases user_triggered <;> rfl
    · intro i hi
      cases user_triggered <;> exact happly i hi
    · intro hu
      subst hu
      simp only [if_pos rfl]
      exact ⟨rfl, rfl⟩
    · intro hu
      subst hu
      simp only [Bool.false_eq_true, if_false]
      refine ⟨hAdoc, ?_⟩
      rw [hAcommit, hAmod]
      by_cases hone : st.modified_lines.length = 1
      · rw [if_pos hone, if_pos hone]
        have hmem : st.modified_lines.headD 0 ∈ st.modified_lines := by
          cases hl : st.modified_lines with
          | nil => exact absurd hl hemp
          | cons a rest => exact List.mem_cons_self a rest
        rw [happly (st.modified_lines.headD 0) hmem, apply_line_id]
      · rw [if_neg hone, if_neg hone]

/-- C5 witness: the policy theorem applied to `stC5` (both lines modified)
with an auto-commit: the modified set empties, each line is applied, and the
call carries hint -1 with no amend target. -/
theorem C5_do_commit_policy_witness :
    ((DoCommit stC5 false).1).modified_lines = [] ∧
    ((DoCommit stC5 false).1).commit_id = stC5.doc_next_id := by
  have h := C5_do_commit_policy stC5 false (by decide) (by decide)
  exact ⟨h.1, (h.2.2 (by decide)).2.2 rfl |>.1⟩

/-- C9 witness: the amended round-trip law applied to a bound line and a
well-ordered time pair with positive end: the times survive the
`SetLine`/`Apply` round trip. -/
theorem C9_setline_apply_witness :
    RoundTrip tlC2 ⟨3, 1200, 1800⟩ = (1200, 1800) :=
  (C9_setline_apply tlC2 ⟨3, 1200, 1800⟩).2.2.2.mpr (Or.inl ⟨by decide, by decide⟩)

end Aegisub
